import Mathlib

/-
Shallow embedding of pyGPs/Core/mean.py (mean-function algebra for Gaussian
processes).

Modelling conventions:
* Python floats are modelled as exact rationals (ℚ); an n×1 numpy column
  vector is a `List ℚ` of length n; an n×D input matrix is a `List (List ℚ)`
  of rows.
* Every mean object is a node of the inductive `MeanF`.  Each node stores the
  attribute state of the corresponding Python object: its `hyp` vector and,
  where the Python class defines them, its `initial` and `scaled` vectors.
  `Zero` and `One` never initialise `self.initial` (their `__init__` does not
  call `Mean.__init__`), so that attribute is an `Option` which starts out
  `none`; `ProductOfMean.__init__` never sets `_initial`/`_scaled`, so the
  `prod` node carries neither.
* A raised Python exception is `Except.error` with a short message; a normal
  return is `Except.ok`.  The overloaded operators `*` and `**` print a
  complaint and return `None` on unsupported operands, which is a *normal*
  return of `none`, hence type `Except String (Option MeanF)`.
* Property setters mutate state and may raise part-way; they are modelled as
  state transformers `MeanF → List ℚ → MeanF × Option String` returning the
  post-call state together with the raised error, mirroring the exact order
  of attribute reads and writes in `CompositeMean._setHyp` / `_setInitial` /
  `_setScaled`.
* `np.log` is float-valued and has no exact counterpart on ℚ, so evaluation
  of derivative matrices is parametrised by an arbitrary function
  `log : ℚ → ℚ`; no claim below depends on its values.
-/

/-- A mean-function node, carrying the mutable attribute state of the
corresponding Python object.  Constructors mirror the classes of mean.py:
`zero`/`one`/`const`/`linear` are the leaves, `sum`/`prod`/`scaleM`/`powerM`
the composites (`SumOfMean`, `ProductOfMean`, `ScaleOfMean`, `PowerOfMean`). -/
inductive MeanF where
  | zero (hyp : List ℚ) (ini : Option (List ℚ)) (scd : List ℚ)
  | one (hyp : List ℚ) (ini : Option (List ℚ)) (scd : List ℚ)
  | const (hyp ini scd : List ℚ)
  | linear (hyp ini scd : List ℚ)
  | sum (hyp ini scd : List ℚ) (m1 m2 : MeanF)
  | prod (hyp : List ℚ) (m1 m2 : MeanF)
  | scaleM (hyp ini scd : List ℚ) (m : MeanF)
  | powerM (hyp ini scd : List ℚ) (m : MeanF)
deriving DecidableEq, Repr

instance instDecEqExceptM {ε α : Type} [DecidableEq ε] [DecidableEq α] :
    DecidableEq (Except ε α) := fun x y =>
  match x, y with
  | .ok a, .ok b =>
    if h : a = b then .isTrue (congrArg Except.ok h)
    else .isFalse (fun hc => h (Except.ok.inj hc))
  | .ok _, .error _ => .isFalse (fun hc => Except.noConfusion hc)
  | .error _, .ok _ => .isFalse (fun hc => Except.noConfusion hc)
  | .error e, .error f =>
    if h : e = f then .isTrue (congrArg Except.error h)
    else .isFalse (fun hc => h (Except.error.inj hc))

/-- Reading the `hyp` attribute (plain attribute on leaves, the
`property(_getHyp, _setHyp)` on composites, which returns `self._hyp`).
Always succeeds. -/
def hypOf : MeanF → List ℚ
  | .zero h _ _ => h
  | .one h _ _ => h
  | .const h _ _ => h
  | .linear h _ _ => h
  | .sum h _ _ _ _ => h
  | .prod h _ _ => h
  | .scaleM h _ _ _ => h
  | .powerM h _ _ _ => h

/-- Reading the `initial` attribute.  `Zero`/`One` raise `AttributeError`
until something assigns it; `ProductOfMean` never sets `_initial`, so its
property getter raises. -/
def iniOf : MeanF → Except String (List ℚ)
  | .zero _ i _ => match i with
    | some l => .ok l
    | none => .error "AttributeError: initial"
  | .one _ i _ => match i with
    | some l => .ok l
    | none => .error "AttributeError: initial"
  | .const _ i _ => .ok i
  | .linear _ i _ => .ok i
  | .sum _ i _ _ _ => .ok i
  | .prod _ _ _ => .error "AttributeError: _initial"
  | .scaleM _ i _ _ => .ok i
  | .powerM _ i _ _ => .ok i

/-- Reading the `scaled` attribute.  Every leaf sets it in `__init__`;
`ProductOfMean` never sets `_scaled`, so its property getter raises. -/
def scdOf : MeanF → Except String (List ℚ)
  | .zero _ _ s => .ok s
  | .one _ _ s => .ok s
  | .const _ _ s => .ok s
  | .linear _ _ s => .ok s
  | .sum _ _ s _ _ => .ok s
  | .prod _ _ _ => .error "AttributeError: _scaled"
  | .scaleM _ _ s _ => .ok s
  | .powerM _ _ s _ => .ok s

/-- Effective exponent of `PowerOfMean`: the code computes
`d = np.abs(np.floor(self.hyp[0])); d = max(d, 1)`. -/
def dEff (c : ℚ) : ℕ := max 1 c.floor.natAbs

/-- Dot product of a data row with the parameter column, as in
`np.dot(x, c)` restricted to one row. -/
def qdot (r c : List ℚ) : ℚ := (List.zipWith (fun a b => a * b) r c).sum

/-- Column count `D` of the input matrix, from `n, D = x.shape`. -/
def shapeD (x : List (List ℚ)) : ℕ := (x.headD []).length

/-- `getMean` of every node.  Leaves build their column directly
(`np.zeros`, `np.ones`, `hyp[0] * np.ones`, `np.dot(x, c)`); composites
combine the children elementwise; `ScaleOfMean` multiplies by `hyp[0]`;
`PowerOfMean` raises to the clamped exponent `dEff hyp[0]`.  `Const` and
`Scale`/`Power` with an empty `hyp` raise `IndexError` on `hyp[0]`;
`Linear` raises `ValueError` when the row length does not match the
parameter count (shape mismatch in `np.dot`). -/
def getMean : MeanF → List (List ℚ) → Except String (List ℚ)
  | .zero _ _ _, x => .ok (List.replicate x.length 0)
  | .one _ _ _, x => .ok (List.replicate x.length 1)
  | .const h _ _, x =>
    match h with
    | [] => .error "IndexError: hyp[0]"
    | c :: _ => .ok (List.replicate x.length c)
  | .linear h _ _, x =>
    if x.all (fun r => r.length == h.length) then
      .ok (x.map (fun r => qdot r h))
    else .error "ValueError: shapes not aligned"
  | .sum _ _ _ m1 m2, x => do
    let a ← getMean m1 x
    let b ← getMean m2 x
    .ok (List.zipWith (fun u v => u + v) a b)
  | .prod _ m1 m2, x => do
    let a ← getMean m1 x
    let b ← getMean m2 x
    .ok (List.zipWith (fun u v => u * v) a b)
  | .scaleM h _ _ m, x =>
    match h with
    | [] => .error "IndexError: hyp[0]"
    | c :: _ => (getMean m x).map (List.map (fun v => c * v))
  | .powerM h _ _ m, x =>
    match h with
    | [] => .error "IndexError: hyp[0]"
    | c :: _ => (getMean m x).map (List.map (fun v => v ^ dEff c))

/-- `getDerMatrix` of every node, for a nonnegative integer index `der`.
`Zero`/`One` return `np.zeros((n,1))` for every index; `Const` returns ones
iff `der == 0`; `Linear` returns column `der` of `x` when `der < D` (the
*data* dimension) and zeros otherwise; `SumOfMean`/`ProductOfMean` route the
index to a child and raise `Exception` past the end of `self.hyp`;
`ScaleOfMean`/`PowerOfMean` read `hyp[0]` first and then branch on
`der == 0` with no range check, delegating `der - 1` to the child.  `log`
abstracts the float function `np.log` used by `PowerOfMean` at `der == 0`. -/
def getDerMatrix (log : ℚ → ℚ) : MeanF → List (List ℚ) → ℕ → Except String (List ℚ)
  | .zero _ _ _, x, _ => .ok (List.replicate x.length 0)
  | .one _ _ _, x, _ => .ok (List.replicate x.length 0)
  | .const _ _ _, x, der =>
    if der = 0 then .ok (List.replicate x.length 1)
    else .ok (List.replicate x.length 0)
  | .linear _ _ _, x, der =>
    if der < shapeD x then .ok (x.map (fun r => r.getD der 0))
    else .ok (List.replicate x.length 0)
  | .sum h _ _ m1 m2, x, der =>
    if der < (hypOf m1).length then getDerMatrix log m1 x der
    else if der < h.length then getDerMatrix log m2 x (der - (hypOf m1).length)
    else .error "Error: der out of range for meanSum"
  | .prod h m1 m2, x, der =>
    if der < (hypOf m1).length then do
      let a ← getDerMatrix log m1 x der
      let b ← getMean m2 x
      .ok (List.zipWith (fun u v => u * v) a b)
    else if der < h.length then do
      let a ← getDerMatrix log m2 x (der - (hypOf m1).length)
      let b ← getMean m1 x
      .ok (List.zipWith (fun u v => u * v) a b)
    else .error "Error: der out of range for meanProduct"
  | .scaleM h _ _ m, x, der =>
    match h with
    | [] => .error "IndexError: hyp[0]"
    | c :: _ =>
      if der = 0 then getMean m x
      else (getDerMatrix log m x (der - 1)).map (List.map (fun v => c * v))
  | .powerM h _ _ m, x, der =>
    match h with
    | [] => .error "IndexError: hyp[0]"
    | c :: _ =>
      if der = 0 then
        (getMean m x).map (List.map (fun v => v ^ dEff c * log v))
      else do
        let a ← getMean m x
        let g ← getDerMatrix log m x (der - 1)
        .ok (List.zipWith (fun v w => (dEff c : ℚ) * v ^ (dEff c - 1) * w) a g)

/-- `Zero()`. -/
def mkZero : MeanF := .zero [] none []

/-- `One()`. -/
def mkOne : MeanF := .one [] none []

/-- `Const(c)` (default `c = 5.`): `hyp = [c]`, `initial = [-1]`,
`scaled = []`. -/
def mkConst (c : ℚ := 5) : MeanF := .const [c] [-1] []

/-- `Linear(D, alpha_list)`: with no `alpha_list` and no `D`, one parameter
`0.5` and `initial = [0]`; with `D`, `D` parameters `0.5` and
`initial = range(D)`; with `alpha_list`, the given parameters, but the
`initial = [i for i in range(D)]` comprehension needs `D` and raises
`TypeError` when `D is None`. -/
def mkLinear (D : Option ℕ) (alphaList : Option (List ℚ)) : Except String MeanF :=
  match alphaList with
  | none =>
    match D with
    | none => .ok (.linear [1/2] [0] [])
    | some d =>
      .ok (.linear (List.replicate d (1/2)) ((List.range d).map (fun k => (k : ℚ))) [])
  | some al =>
    match D with
    | none => .error "TypeError: range of None"
    | some d => .ok (.linear al ((List.range d).map (fun k => (k : ℚ))) [])

/-- `SumOfMean(mean1, mean2)`: when both children have parameters the three
vectors are concatenations, otherwise the vectors of the parametered side
are taken verbatim; reading a child's missing `initial`/`scaled` raises. -/
def mkSum (m1 m2 : MeanF) : Except String MeanF :=
  if hypOf m1 ≠ [] ∧ hypOf m2 ≠ [] then do
    let i1 ← iniOf m1
    let i2 ← iniOf m2
    let s1 ← scdOf m1
    let s2 ← scdOf m2
    .ok (.sum (hypOf m1 ++ hypOf m2) (i1 ++ i2) (s1 ++ s2) m1 m2)
  else if hypOf m1 = [] then do
    let i2 ← iniOf m2
    let s2 ← scdOf m2
    .ok (.sum (hypOf m2) i2 s2 m1 m2)
  else do
    let i1 ← iniOf m1
    let s1 ← scdOf m1
    .ok (.sum (hypOf m1) i1 s1 m1 m2)

/-- `ProductOfMean(mean1, mean2)`: only `_hyp` is set (concatenation, or the
nonempty side); `_initial` and `_scaled` are never initialised. -/
def mkProd (m1 m2 : MeanF) : MeanF :=
  if hypOf m1 ≠ [] ∧ hypOf m2 ≠ [] then .prod (hypOf m1 ++ hypOf m2) m1 m2
  else if hypOf m1 = [] then .prod (hypOf m2) m1 m2
  else .prod (hypOf m1) m1 m2

/-- `ScaleOfMean(mean, scalar)`: `_hyp = [scalar] + mean.hyp` but
`_initial = mean.initial` and `_scaled = mean.scaled` (no slot for the scale
parameter); with a parameterless child all three collapse accordingly. -/
def mkScale (m : MeanF) (scalar : ℚ) : Except String MeanF :=
  if hypOf m ≠ [] then do
    let i ← iniOf m
    let s ← scdOf m
    .ok (.scaleM (scalar :: hypOf m) i s m)
  else .ok (.scaleM [scalar] [] [] m)

/-- `PowerOfMean(mean, d)`: `_hyp = [d] + mean.hyp`,
`_initial = [-1] + mean.initial`, `_scaled = [] + mean.scaled`. -/
def mkPower (m : MeanF) (d : ℚ) : Except String MeanF :=
  if hypOf m ≠ [] then do
    let i ← iniOf m
    let s ← scdOf m
    .ok (.powerM (d :: hypOf m) (-1 :: i) s m)
  else .ok (.powerM [d] [] [] m)

/-- Operand of the overloaded `*`: `isinstance(other, int)` or `float`
(`num`), another mean function (`meanArg`), or anything else such as a
string (`other`). -/
inductive MulOperand where
  | num (q : ℚ)
  | meanArg (m : MeanF)
  | other
deriving DecidableEq, Repr

/-- `Mean.__mul__`: a number builds `ScaleOfMean`, a mean builds
`ProductOfMean`, and any other operand makes the method print
"only numbers and Means are allowed for *" and fall through, returning
`None` (a normal return of no node, not a raised error). -/
def pyMul (m : MeanF) : MulOperand → Except String (Option MeanF)
  | .num q => (mkScale m q).map some
  | .meanArg m2 => .ok (some (mkProd m m2))
  | .other => .ok none

/-- Operand of the overloaded `**`: a Python `int`, a `float`, or anything
else. -/
inductive PowOperand where
  | intOp (z : ℤ)
  | floatOp (q : ℚ)
  | other
deriving DecidableEq, Repr

/-- `Mean.__pow__`: `isinstance(number, int) and number > 0` builds
`PowerOfMean`; every other operand (non-positive int, float, or other type)
makes the method print "only non-zero integers are supported for **" and
return `None` (a normal return, not a raised error). -/
def pyPow (m : MeanF) : PowOperand → Except String (Option MeanF)
  | .intOp z => if z > 0 then (mkPower m (z : ℚ)).map some else .ok none
  | .floatOp _ => .ok none
  | .other => .ok none

/-- Assigning the `hyp` attribute.  On leaves this is a plain attribute
write.  On composites it runs `CompositeMean._setHyp`: first
`assert len(hyp) == len(self._hyp)`, then `len1 = len(self.mean1.hyp)` —
which raises `AttributeError` on `ScaleOfMean`/`PowerOfMean`, whose child
attribute is named `mean`, not `mean1` — then `self._hyp = hyp` and the
recursive writes to `mean1.hyp` and `mean2.hyp`.  The returned pair is the
post-call state of the node together with the raised error, if any; a
failure in `mean1`'s write leaves `mean2` untouched but `self._hyp`
already reassigned. -/
def setHypS : MeanF → List ℚ → MeanF × Option String
  | .zero _ i s, v => (.zero v i s, none)
  | .one _ i s, v => (.one v i s, none)
  | .const _ i s, v => (.const v i s, none)
  | .linear _ i s, v => (.linear v i s, none)
  | .sum h i s m1 m2, v =>
    if v.length ≠ h.length then (.sum h i s m1 m2, some "AssertionError")
    else
      let r1 := setHypS m1 (v.take (hypOf m1).length)
      match r1.2 with
      | some e => (.sum v i s r1.1 m2, some e)
      | none =>
        let r2 := setHypS m2 (v.drop (hypOf m1).length)
        (.sum v i s r1.1 r2.1, r2.2)
  | .prod h m1 m2, v =>
    if v.length ≠ h.length then (.prod h m1 m2, some "AssertionError")
    else
      let r1 := setHypS m1 (v.take (hypOf m1).length)
      match r1.2 with
      | some e => (.prod v r1.1 m2, some e)
      | none =>
        let r2 := setHypS m2 (v.drop (hypOf m1).length)
        (.prod v r1.1 r2.1, r2.2)
  | .scaleM h i s m, v =>
    if v.length ≠ h.length then (.scaleM h i s m, some "AssertionError")
    else (.scaleM h i s m, some "AttributeError: mean1")
  | .powerM h i s m, v =>
    if v.length ≠ h.length then (.powerM h i s m, some "AssertionError")
    else (.powerM h i s m, some "AttributeError: mean1")

/-- Assigning the `initial` attribute.  Leaves take a plain attribute write
(which *creates* the attribute on `Zero`/`One`).  `_setInitial` asserts the
new length against `len(self._initial)` — on `ProductOfMean` that read
raises `AttributeError` — then reads `len(self.mean1.initial)` (raising on
`ScaleOfMean`/`PowerOfMean`, and when `mean1` lacks the attribute), then
assigns `self._initial` and recurses into the children. -/
def setIniS : MeanF → List ℚ → MeanF × Option String
  | .zero h _ s, v => (.zero h (some v) s, none)
  | .one h _ s, v => (.one h (some v) s, none)
  | .const h _ s, v => (.const h v s, none)
  | .linear h _ s, v => (.linear h v s, none)
  | .sum h i s m1 m2, v =>
    if v.length ≠ i.length then (.sum h i s m1 m2, some "AssertionError")
    else
      match iniOf m1 with
      | .error e => (.sum h i s m1 m2, some e)
      | .ok i1 =>
        let r1 := setIniS m1 (v.take i1.length)
        match r1.2 with
        | some e => (.sum h v s r1.1 m2, some e)
        | none =>
          let r2 := setIniS m2 (v.drop i1.length)
          (.sum h v s r1.1 r2.1, r2.2)
  | .prod h m1 m2, _ => (.prod h m1 m2, some "AttributeError: _initial")
  | .scaleM h i s m, v =>
    if v.length ≠ i.length then (.scaleM h i s m, some "AssertionError")
    else (.scaleM h i s m, some "AttributeError: mean1")
  | .powerM h i s m, v =>
    if v.length ≠ i.length then (.powerM h i s m, some "AssertionError")
    else (.powerM h i s m, some "AttributeError: mean1")

/-- Assigning the `scaled` attribute; same structure as `setIniS` with the
`scaled` vectors (`Zero`/`One` do initialise `scaled`, `ProductOfMean`
never sets `_scaled`). -/
def setScdS : MeanF → List ℚ → MeanF × Option String
  | .zero h i _, v => (.zero h i v, none)
  | .one h i _, v => (.one h i v, none)
  | .const h i _, v => (.const h i v, none)
  | .linear h i _, v => (.linear h i v, none)
  | .sum h i s m1 m2, v =>
    if v.length ≠ s.length then (.sum h i s m1 m2, some "AssertionError")
    else
      match scdOf m1 with
      | .error e => (.sum h i s m1 m2, some e)
      | .ok s1 =>
        let r1 := setScdS m1 (v.take s1.length)
        match r1.2 with
        | some e => (.sum h i v r1.1 m2, some e)
        | none =>
          let r2 := setScdS m2 (v.drop s1.length)
          (.sum h i v r1.1 r2.1, r2.2)
  | .prod h m1 m2, _ => (.prod h m1 m2, some "AttributeError: _scaled")
  | .scaleM h i s m, v =>
    if v.length ≠ s.length then (.scaleM h i s m, some "AssertionError")
    else (.scaleM h i s m, some "AttributeError: mean1")
  | .powerM h i s m, v =>
    if v.length ≠ s.length then (.powerM h i s m, some "AssertionError")
    else (.powerM h i s m, some "AttributeError: mean1")

/-- A node is a composite (instance of `CompositeMean`). -/
def isComposite : MeanF → Bool
  | .sum _ _ _ _ _ => true
  | .prod _ _ _ => true
  | .scaleM _ _ _ _ => true
  | .powerM _ _ _ _ => true
  | _ => false

/-- Total parameter count of a tree: hyp length at a leaf, the children's
counts for `Sum`/`Product`, one extra own slot for `Scale`/`Power`. -/
def paramCount : MeanF → ℕ
  | .zero h _ _ => h.length
  | .one h _ _ => h.length
  | .const h _ _ => h.length
  | .linear h _ _ => h.length
  | .sum _ _ _ m1 m2 => paramCount m1 + paramCount m2
  | .prod _ m1 m2 => paramCount m1 + paramCount m2
  | .scaleM _ _ _ m => 1 + paramCount m
  | .powerM _ _ _ m => 1 + paramCount m

/-- Structural invariant maintained by the constructors: every stored `_hyp`
has the length of the concatenation that built it. -/
def hypConsistent : MeanF → Bool
  | .zero _ _ _ => true
  | .one _ _ _ => true
  | .const _ _ _ => true
  | .linear _ _ _ => true
  | .sum h _ _ m1 m2 =>
    h.length == (hypOf m1).length + (hypOf m2).length
      && hypConsistent m1 && hypConsistent m2
  | .prod h m1 m2 =>
    h.length == (hypOf m1).length + (hypOf m2).length
      && hypConsistent m1 && hypConsistent m2
  | .scaleM h _ _ m => h.length == 1 + (hypOf m).length && hypConsistent m
  | .powerM h _ _ m => h.length == 1 + (hypOf m).length && hypConsistent m

/-- Trees whose composite nodes are all `Sum` or `Product` — the only
composites whose property setters can run to completion. -/
def sumProdOnly : MeanF → Bool
  | .zero _ _ _ => true
  | .one _ _ _ => true
  | .const _ _ _ => true
  | .linear _ _ _ => true
  | .sum _ _ _ m1 m2 => sumProdOnly m1 && sumProdOnly m2
  | .prod _ m1 m2 => sumProdOnly m1 && sumProdOnly m2
  | .scaleM _ _ _ _ => false
  | .powerM _ _ _ _ => false


/-- On a tree satisfying the constructor invariant, the stored root `_hyp`
has exactly the total parameter count of the tree. -/
theorem hypLen_of_consistent :
    ∀ t : MeanF, hypConsistent t = true → (hypOf t).length = paramCount t := by
  intro t
  induction t with
  | zero h i s => intro _; rfl
  | one h i s => intro _; rfl
  | const h i s => intro _; rfl
  | linear h i s => intro _; rfl
  | sum h i s m1 m2 ih1 ih2 =>
    intro hc
    simp only [hypConsistent, Bool.and_eq_true, beq_iff_eq] at hc
    obtain ⟨⟨hlen, hc1⟩, hc2⟩ := hc
    simp only [hypOf, paramCount]
    rw [hlen, ih1 hc1, ih2 hc2]
  | prod h m1 m2 ih1 ih2 =>
    intro hc
    simp only [hypConsistent, Bool.and_eq_true, beq_iff_eq] at hc
    obtain ⟨⟨hlen, hc1⟩, hc2⟩ := hc
    simp only [hypOf, paramCount]
    rw [hlen, ih1 hc1, ih2 hc2]
  | scaleM h i s m ih =>
    intro hc
    simp only [hypConsistent, Bool.and_eq_true, beq_iff_eq] at hc
    obtain ⟨hlen, hc1⟩ := hc
    simp only [hypOf, paramCount]
    rw [hlen, ih hc1]
  | powerM h i s m ih =>
    intro hc
    simp only [hypConsistent, Bool.and_eq_true, beq_iff_eq] at hc
    obtain ⟨hlen, hc1⟩ := hc
    simp only [hypOf, paramCount]
    rw [hlen, ih hc1]

/-- On a tree whose composites are all `Sum`/`Product` and whose stored
`_hyp` vectors satisfy the constructor invariant, a correct-length `hyp`
write runs to completion and installs exactly the assigned vector. -/
theorem setHypS_sumProd_ok :
    ∀ t : MeanF, ∀ v : List ℚ, sumProdOnly t = true → hypConsistent t = true →
      v.length = (hypOf t).length →
      (setHypS t v).2 = none ∧ hypOf (setHypS t v).1 = v := by
  intro t
  induction t with
  | zero h i s => intro v _ _ _; exact ⟨rfl, rfl⟩
  | one h i s => intro v _ _ _; exact ⟨rfl, rfl⟩
  | const h i s => intro v _ _ _; exact ⟨rfl, rfl⟩
  | linear h i s => intro v _ _ _; exact ⟨rfl, rfl⟩
  | sum h i s m1 m2 ih1 ih2 =>
    intro v hsp hc hl
    simp only [sumProdOnly, Bool.and_eq_true] at hsp
    simp only [hypConsistent, Bool.and_eq_true, beq_iff_eq] at hc
    obtain ⟨⟨hlen, hc1⟩, hc2⟩ := hc
    simp only [hypOf] at hl
    have hl1 : (v.take (hypOf m1).length).length = (hypOf m1).length := by
      rw [List.length_take]; omega
    have hl2 : (v.drop (hypOf m1).length).length = (hypOf m2).length := by
      rw [List.length_drop]; omega
    have r1 := ih1 (v.take (hypOf m1).length) hsp.1 hc1 hl1
    have r2 := ih2 (v.drop (hypOf m1).length) hsp.2 hc2 hl2
    simp only [setHypS]
    rw [if_neg (by omega : ¬ v.length ≠ h.length)]
    rw [r1.1]
    exact ⟨r2.1, rfl⟩
  | prod h m1 m2 ih1 ih2 =>
    intro v hsp hc hl
    simp only [sumProdOnly, Bool.and_eq_true] at hsp
    simp only [hypConsistent, Bool.and_eq_true, beq_iff_eq] at hc
    obtain ⟨⟨hlen, hc1⟩, hc2⟩ := hc
    simp only [hypOf] at hl
    have hl1 : (v.take (hypOf m1).length).length = (hypOf m1).length := by
      rw [List.length_take]; omega
    have hl2 : (v.drop (hypOf m1).length).length = (hypOf m2).length := by
      rw [List.length_drop]; omega
    have r1 := ih1 (v.take (hypOf m1).length) hsp.1 hc1 hl1
    have r2 := ih2 (v.drop (hypOf m1).length) hsp.2 hc2 hl2
    simp only [setHypS]
    rw [if_neg (by omega : ¬ v.length ≠ h.length)]
    rw [r1.1]
    exact ⟨r2.1, rfl⟩
  | scaleM h i s m ih => intro v hsp; cases hsp
  | powerM h i s m ih => intro v hsp; cases hsp

/-- C1 counterexample: `Zero().getDerMatrix(x, 0)` — the index 0 is out of
range for the parameterless `Zero` leaf, so the claim requires a reported
error, but the code returns the all-zero column `np.zeros((n,1))`
normally. -/
theorem C1_counterexample_zero_der_silent :
    getDerMatrix (fun v => v) mkZero [[1], [2]] 0 = .ok [0, 0] := by decide

/-- C1 (amended): only the `Sum` and `Product` composites report an error
for a derivative index at or past the end of their parameter vector; the
zero-parameter leaves `Zero` and `One` instead return an all-zero column
for every index, silently. -/
theorem C1_amended_out_of_range :
    (∀ (log : ℚ → ℚ) (x : List (List ℚ)) (der : ℕ) (h i s : List ℚ) (m1 m2 : MeanF),
      (hypOf m1).length ≤ der → h.length ≤ der →
      getDerMatrix log (.sum h i s m1 m2) x der = .error "Error: der out of range for meanSum")
    ∧ (∀ (log : ℚ → ℚ) (x : List (List ℚ)) (der : ℕ) (h : List ℚ) (m1 m2 : MeanF),
      (hypOf m1).length ≤ der → h.length ≤ der →
      getDerMatrix log (.prod h m1 m2) x der = .error "Error: der out of range for meanProduct")
    ∧ (∀ (log : ℚ → ℚ) (x : List (List ℚ)) (der : ℕ),
      getDerMatrix log mkZero x der = .ok (List.replicate x.length 0)
      ∧ getDerMatrix log mkOne x der = .ok (List.replicate x.length 0)) := by
  refine ⟨?_, ?_, ?_⟩
  · intro log x der h i s m1 m2 h1 h2
    simp only [getDerMatrix]
    rw [if_neg (by omega), if_neg (by omega)]
  · intro log x der h m1 m2 h1 h2
    simp only [getDerMatrix]
    rw [if_neg (by omega), if_neg (by omega)]
  · intro log x der
    exact ⟨rfl, rfl⟩

/-- C1 witness: a Sum of `Const` and `Zero` (one parameter in total) raises
the out-of-range error at index 5. -/
theorem C1_witness_sum_error :
    getDerMatrix (fun v => v) (.sum [1] [-1] [] (.const [1] [-1] []) mkZero) [[0]] 5 =
      .error "Error: der out of range for meanSum" :=
  C1_amended_out_of_range.1 (fun v => v) [[0]] 5 [1] [-1] [] (.const [1] [-1] []) mkZero
    (by decide) (by decide)

/-- C2 counterexample: a `ScaleOfMean` of `Const` (total parameter vector
`[2, 5]`) — assigning the correct-length vector `[3, 7]` to `hyp` raises
`AttributeError` (the shared setter reads `self.mean1`, which Scale nodes
do not define) and repartitions nothing, refuting the claim for the Scale
composite. -/
theorem C2_counterexample_scale_hyp_write :
    setHypS (.scaleM [2, 5] [-1] [] (.const [5] [-1] [])) [3, 7] =
      (.scaleM [2, 5] [-1] [] (.const [5] [-1] []), some "AttributeError: mean1") := by
  decide

/-- C2 (amended): on `Sum` and `Product` composites whose descendant
composites are themselves all `Sum`/`Product`, a correct-length `hyp`
write repartitions the vector onto the children — child1 receives the
first `len(child1.hyp)` entries and child2 the rest; on `Scale` and
`Power` composites every `hyp` write raises instead (see C10). -/
theorem C2_amended_sum_prod_repartition :
    ∀ (h i s v : List ℚ) (m1 m2 : MeanF),
      sumProdOnly m1 = true → sumProdOnly m2 = true →
      hypConsistent m1 = true → hypConsistent m2 = true →
      h.length = (hypOf m1).length + (hypOf m2).length →
      v.length = h.length →
      (∃ m1p m2p, setHypS (.sum h i s m1 m2) v = (.sum v i s m1p m2p, none)
        ∧ hypOf m1p = v.take (hypOf m1).length ∧ hypOf m2p = v.drop (hypOf m1).length)
      ∧ (∃ m1p m2p, setHypS (.prod h m1 m2) v = (.prod v m1p m2p, none)
        ∧ hypOf m1p = v.take (hypOf m1).length ∧ hypOf m2p = v.drop (hypOf m1).length) := by
  intro h i s v m1 m2 hsp1 hsp2 hc1 hc2 hlen hl
  have hl1 : (v.take (hypOf m1).length).length = (hypOf m1).length := by
    rw [List.length_take]; omega
  have hl2 : (v.drop (hypOf m1).length).length = (hypOf m2).length := by
    rw [List.length_drop]; omega
  have r1 := setHypS_sumProd_ok m1 (v.take (hypOf m1).length) hsp1 hc1 hl1
  have r2 := setHypS_sumProd_ok m2 (v.drop (hypOf m1).length) hsp2 hc2 hl2
  constructor
  · refine ⟨(setHypS m1 (v.take (hypOf m1).length)).1,
      (setHypS m2 (v.drop (hypOf m1).length)).1, ?_, r1.2, r2.2⟩
    simp only [setHypS]
    rw [if_neg (by omega : ¬ v.length ≠ h.length)]
    rw [r1.1]
    rw [r2.1]
  · refine ⟨(setHypS m1 (v.take (hypOf m1).length)).1,
      (setHypS m2 (v.drop (hypOf m1).length)).1, ?_, r1.2, r2.2⟩
    simp only [setHypS]
    rw [if_neg (by omega : ¬ v.length ≠ h.length)]
    rw [r1.1]
    rw [r2.1]

/-- C2 witness: the Sum of two `Const` leaves repartitions `[9, 8]` as
`[9]` to the first child and `[8]` to the second. -/
theorem C2_witness_sum_of_consts :
    ∃ m1p m2p,
      setHypS (.sum [1, 2] [-1, -1] [] (.const [1] [-1] []) (.const [2] [-1] [])) [9, 8] =
        (.sum [9, 8] [-1, -1] [] m1p m2p, none)
      ∧ hypOf m1p = [9] ∧ hypOf m2p = [8] :=
  (C2_amended_sum_prod_repartition [1, 2] [-1, -1] [] [9, 8]
    (.const [1] [-1] []) (.const [2] [-1] [])
    (by decide) (by decide) (by decide) (by decide) (by decide) (by decide)).1

/-- C10: on a `ScaleOfMean` or `PowerOfMean` node (here with a parametered
child, as the claim states), ANY assignment to `hyp`, `initial`, or
`scaled` through the composite property setter raises — the shared setter
reads `self.mean1`, which these classes never define (their child is
`self.mean`), or fails the length assertion first — and the node is
returned exactly as it was, so these composites cannot be updated through
the write interface. -/
theorem C10_scale_power_setters_always_raise :
    ∀ (h i s v : List ℚ) (m : MeanF), hypOf m ≠ [] →
      (∃ e, setHypS (.scaleM h i s m) v = (.scaleM h i s m, some e))
      ∧ (∃ e, setIniS (.scaleM h i s m) v = (.scaleM h i s m, some e))
      ∧ (∃ e, setScdS (.scaleM h i s m) v = (.scaleM h i s m, some e))
      ∧ (∃ e, setHypS (.powerM h i s m) v = (.powerM h i s m, some e))
      ∧ (∃ e, setIniS (.powerM h i s m) v = (.powerM h i s m, some e))
      ∧ (∃ e, setScdS (.powerM h i s m) v = (.powerM h i s m, some e)) := by
  intro h i s v m _
  refine ⟨?_, ?_, ?_, ?_, ?_, ?_⟩
  · simp only [setHypS]; split
    · exact ⟨_, rfl⟩
    · exact ⟨_, rfl⟩
  · simp only [setIniS]; split
    · exact ⟨_, rfl⟩
    · exact ⟨_, rfl⟩
  · simp only [setScdS]; split
    · exact ⟨_, rfl⟩
    · exact ⟨_, rfl⟩
  · simp only [setHypS]; split
    · exact ⟨_, rfl⟩
    · exact ⟨_, rfl⟩
  · simp only [setIniS]; split
    · exact ⟨_, rfl⟩
    · exact ⟨_, rfl⟩
  · simp only [setScdS]; split
    · exact ⟨_, rfl⟩
    · exact ⟨_, rfl⟩

/-- C10 witness: the `ScaleOfMean` of a `Const` rejects a correct-length
`hyp` write, returning the node unchanged. -/
theorem C10_witness_scale_unchanged :
    ∃ e, setHypS (.scaleM [2, 5] [-1] [] (.const [5] [-1] [])) [9, 9] =
      (.scaleM [2, 5] [-1] [] (.const [5] [-1] []), some e) :=
  (C10_scale_power_setters_always_raise [2, 5] [-1] [] [9, 9] (.const [5] [-1] [])
    (by decide)).1

/-- C3 counterexample: `ScaleOfMean(Const(5.), 2)` — immediately after
construction the node's `hyp` is `[2, 5]` (length 2) but its `initial` is
the child's `[-1]` (length 1): the auxiliary vector does not have the same
length as `hyp` and has no slot for the node's own scale parameter. -/
theorem C3_counterexample_scale_lengths :
    mkScale (mkConst 5) 2 = .ok (.scaleM [2, 5] [-1] [] (.const [5] [-1] []))
    ∧ iniOf (.scaleM [2, 5] [-1] [] (.const [5] [-1] [])) = .ok [-1]
    ∧ ([(-1 : ℚ)] : List ℚ).length ≠
        (hypOf (.scaleM [2, 5] [-1] [] (.const [5] [-1] []))).length := by decide

/-- `ProductOfMean` never initialises `_initial`: its getter raises. -/
theorem iniOf_mkProd (m1 m2 : MeanF) :
    iniOf (mkProd m1 m2) = .error "AttributeError: _initial" := by
  unfold mkProd
  by_cases h1 : hypOf m1 ≠ [] ∧ hypOf m2 ≠ []
  · rw [if_pos h1]; rfl
  · rw [if_neg h1]
    by_cases h2 : hypOf m1 = []
    · rw [if_pos h2]; rfl
    · rw [if_neg h2]; rfl

/-- `ProductOfMean` never initialises `_scaled`: its getter raises. -/
theorem scdOf_mkProd (m1 m2 : MeanF) :
    scdOf (mkProd m1 m2) = .error "AttributeError: _scaled" := by
  unfold mkProd
  by_cases h1 : hypOf m1 ≠ [] ∧ hypOf m2 ≠ []
  · rw [if_pos h1]; rfl
  · rw [if_neg h1]
    by_cases h2 : hypOf m1 = []
    · rw [if_pos h2]; rfl
    · rw [if_neg h2]; rfl

/-- C3 (amended): after construction the auxiliary vectors follow the
constructors' actual rules, which do NOT keep them the same length as
`hyp`: a Sum of two parametered children concatenates the children's
`initial`/`scaled` verbatim, a Scale node copies the child's vectors with
no slot for the scale parameter, a Power node prepends `-1` to `initial`
but nothing to `scaled`, and a Product node defines neither vector
(reading them raises `AttributeError`). -/
theorem C3_amended_aux_vectors :
    ∀ (m1 m2 : MeanF) (i1 i2 s1 s2 : List ℚ) (c : ℚ),
      iniOf m1 = .ok i1 → iniOf m2 = .ok i2 → scdOf m1 = .ok s1 → scdOf m2 = .ok s2 →
      hypOf m1 ≠ [] → hypOf m2 ≠ [] →
      mkSum m1 m2 = .ok (.sum (hypOf m1 ++ hypOf m2) (i1 ++ i2) (s1 ++ s2) m1 m2)
      ∧ mkScale m1 c = .ok (.scaleM (c :: hypOf m1) i1 s1 m1)
      ∧ mkPower m1 c = .ok (.powerM (c :: hypOf m1) (-1 :: i1) s1 m1)
      ∧ iniOf (mkProd m1 m2) = .error "AttributeError: _initial"
      ∧ scdOf (mkProd m1 m2) = .error "AttributeError: _scaled" := by
  intro m1 m2 i1 i2 s1 s2 c hi1 hi2 hs1 hs2 hm1 hm2
  refine ⟨?_, ?_, ?_, ?_, ?_⟩
  · simp only [mkSum]
    rw [if_pos ⟨hm1, hm2⟩, hi1, hi2, hs1, hs2]
    rfl
  · simp only [mkScale]
    rw [if_pos hm1, hi1, hs1]
    rfl
  · simp only [mkPower]
    rw [if_pos hm1, hi1, hs1]
    rfl
  · exact iniOf_mkProd m1 m2
  · exact scdOf_mkProd m1 m2

/-- C3 witness: Sum, Scale, Power of `Const`/`Linear` leaves, concretely. -/
theorem C3_witness_const_linear :
    mkSum (.const [5] [-1] []) (.linear [1, 1] [0, 1] []) =
      .ok (.sum [5, 1, 1] [-1, 0, 1] [] (.const [5] [-1] []) (.linear [1, 1] [0, 1] []))
    ∧ mkScale (.const [5] [-1] []) 3 = .ok (.scaleM [3, 5] [-1] [] (.const [5] [-1] []))
    ∧ mkPower (.const [5] [-1] []) 3 = .ok (.powerM [3, 5] [-1, -1] [] (.const [5] [-1] []))
    ∧ iniOf (mkProd (.const [5] [-1] []) (.linear [1, 1] [0, 1] [])) =
        .error "AttributeError: _initial"
    ∧ scdOf (mkProd (.const [5] [-1] []) (.linear [1, 1] [0, 1] [])) =
        .error "AttributeError: _scaled" := by
  have h := C3_amended_aux_vectors (.const [5] [-1] []) (.linear [1, 1] [0, 1] [])
    [-1] [0, 1] [] [] 3 rfl rfl rfl rfl (by decide) (by decide)
  exact h

/-- C4 counterexample: `PowerOfMean(Const(2.), -3)` — the claim says stored
exponent −3 evaluates with effective exponent 1, but the code computes
`max(1, abs(floor(-3))) = 3`: on a one-row input the child evaluates to
`[2]` and the Power node to `[8] = [2^3]`, not `[2] = [2^1]`. -/
theorem C4_counterexample_minus3 :
    mkPower (mkConst 2) (-3) = .ok (.powerM [-3, 2] [-1, -1] [] (.const [2] [-1] []))
    ∧ getMean (.powerM [-3, 2] [-1, -1] [] (.const [2] [-1] [])) [[0]] = .ok [8]
    ∧ (8 : ℚ) ≠ 2 ^ (1 : ℕ) := by decide

/-- C4 (amended): a Power node evaluates the child raised elementwise to
`d_eff = max(1, abs(floor(d)))` — abs of floor, not floor of abs — without
raising for non-positive or fractional stored exponents; in particular
stored exponents 0, −3 and 2.7 give effective exponents 1, 3 and 2 (and
−2.7 gives 3, where the claim's formula `floor(abs(d))` would give 2). -/
theorem C4_amended_power_clamp :
    ∀ (d : ℚ) (rest i s : List ℚ) (m : MeanF) (x : List (List ℚ)),
      getMean (.powerM (d :: rest) i s m) x = (getMean m x).map (List.map (fun v => v ^ dEff d))
      ∧ dEff 0 = 1 ∧ dEff (-3) = 3 ∧ dEff (27/10) = 2 ∧ dEff (-27/10) = 3 := by
  intro d rest i s m x
  refine ⟨rfl, by decide, by decide, ?_, ?_⟩
  · have h2 : ⌊(27/10 : ℚ)⌋ = (2 : ℤ) := Int.floor_eq_iff.mpr (by norm_num)
    unfold dEff
    rw [show Rat.floor (27/10 : ℚ) = ⌊(27/10 : ℚ)⌋ from rfl, h2]
    rfl
  · have h2 : ⌊(-27/10 : ℚ)⌋ = (-3 : ℤ) := Int.floor_eq_iff.mpr (by norm_num)
    unfold dEff
    rw [show Rat.floor (-27/10 : ℚ) = ⌊(-27/10 : ℚ)⌋ from rfl, h2]
    rfl

/-- C5: derivative-index routing of `Sum` and `Product` over children with
parameter counts L1 and L2.  For every index below L1 the request goes to
child1 at the same index; for every index in [L1, L1+L2) it goes to child2
at the index shifted down by L1; a Sum returns the delegated derivative
unchanged, a Product multiplies it elementwise by the other child's
evaluation.  The two ranges are disjoint, so no index reaches both
children. -/
theorem C5_der_index_routing :
    ∀ (log : ℚ → ℚ) (x : List (List ℚ)) (der : ℕ) (h i s hp : List ℚ) (m1 m2 : MeanF),
      h.length = (hypOf m1).length + (hypOf m2).length →
      hp.length = (hypOf m1).length + (hypOf m2).length →
      (der < (hypOf m1).length →
        getDerMatrix log (.sum h i s m1 m2) x der = getDerMatrix log m1 x der
        ∧ getDerMatrix log (.prod hp m1 m2) x der =
          (getDerMatrix log m1 x der).bind (fun a =>
            (getMean m2 x).bind (fun b => .ok (List.zipWith (fun u v => u * v) a b))))
      ∧ ((hypOf m1).length ≤ der → der < (hypOf m1).length + (hypOf m2).length →
        getDerMatrix log (.sum h i s m1 m2) x der =
          getDerMatrix log m2 x (der - (hypOf m1).length)
        ∧ getDerMatrix log (.prod hp m1 m2) x der =
          (getDerMatrix log m2 x (der - (hypOf m1).length)).bind (fun a =>
            (getMean m1 x).bind (fun b => .ok (List.zipWith (fun u v => u * v) a b)))) := by
  intro log x der h i s hp m1 m2 hlen hplen
  constructor
  · intro hlt
    constructor
    · simp only [getDerMatrix]
      rw [if_pos hlt]
    · simp only [getDerMatrix]
      rw [if_pos hlt]
      rfl
  · intro hge hlt
    constructor
    · simp only [getDerMatrix]
      rw [if_neg (by omega), if_pos (by omega)]
    · simp only [getDerMatrix]
      rw [if_neg (by omega), if_pos (by omega)]
      rfl

/-- C5 witness: in a Sum of two `Const` leaves, index 0 routes to child1
and equals its derivative. -/
theorem C5_witness_sum_routes_to_child1 :
    getDerMatrix (fun v => v)
      (.sum [1, 2] [-1, -1] [] (.const [1] [-1] []) (.const [2] [-1] [])) [[0]] 0 =
      getDerMatrix (fun v => v) (.const [1] [-1] []) [[0]] 0 :=
  ((C5_der_index_routing (fun v => v) [[0]] 0 [1, 2] [-1, -1] [] [1, 2]
    (.const [1] [-1] []) (.const [2] [-1] []) (by decide) (by decide)).1 (by decide)).1

/-- C6 counterexample: `Sum(Const(5.), Const(5.))` has total parameter
count 2, but its stored `_scaled` is `[]`, so assigning `scaled = []` — a
sequence whose length 0 differs from the parameter count 2 — passes the
`assert len(scaled) == len(self._scaled)` check and completes with no
error at all, instead of failing immediately as the claim requires. -/
theorem C6_counterexample_scaled_silent_success :
    setScdS (.sum [5, 5] [-1, -1] [] (.const [5] [-1] []) (.const [5] [-1] [])) [] =
      (.sum [5, 5] [-1, -1] [] (.const [5] [-1] []) (.const [5] [-1] []), none)
    ∧ paramCount (.sum [5, 5] [-1, -1] [] (.const [5] [-1] []) (.const [5] [-1] [])) = 2
    ∧ ([] : List ℚ).length ≠ 2 := by decide

/-- C6 (amended): the immediate-failure guarantee holds for `hyp` only: on
any composite whose stored vectors satisfy the constructor invariant,
assigning `hyp` with a sequence whose length differs from the total
parameter count fails at the length assertion before any partitioning and
returns the node unchanged.  For `initial`/`scaled` the assertion compares
against the stored auxiliary vector, whose length can differ from the
parameter count, so a wrong-parameter-length write can silently succeed
(the counterexample) or mutate the node before failing. -/
theorem C6_amended_hyp_length_assert :
    ∀ (t : MeanF) (v : List ℚ), isComposite t = true → hypConsistent t = true →
      v.length ≠ paramCount t → setHypS t v = (t, some "AssertionError") := by
  intro t v hcomp hc hlen
  have hl := hypLen_of_consistent t hc
  cases t with
  | zero h i s => exact Bool.noConfusion hcomp
  | one h i s => exact Bool.noConfusion hcomp
  | const h i s => exact Bool.noConfusion hcomp
  | linear h i s => exact Bool.noConfusion hcomp
  | sum h i s m1 m2 =>
    simp only [hypOf] at hl
    have hne : v.length ≠ h.length := by rw [hl]; exact hlen
    simp only [setHypS]
    rw [if_pos hne]
  | prod h m1 m2 =>
    simp only [hypOf] at hl
    have hne : v.length ≠ h.length := by rw [hl]; exact hlen
    simp only [setHypS]
    rw [if_pos hne]
  | scaleM h i s m =>
    simp only [hypOf] at hl
    have hne : v.length ≠ h.length := by rw [hl]; exact hlen
    simp only [setHypS]
    rw [if_pos hne]
  | powerM h i s m =>
    simp only [hypOf] at hl
    have hne : v.length ≠ h.length := by rw [hl]; exact hlen
    simp only [setHypS]
    rw [if_pos hne]

/-- C6 witness: a Sum of two `Const` leaves rejects a length-1 `hyp`
assignment with the assertion error, unchanged. -/
theorem C6_witness_sum_assert :
    setHypS (.sum [1, 2] [-1, -1] [] (.const [1] [-1] []) (.const [2] [-1] [])) [1] =
      (.sum [1, 2] [-1, -1] [] (.const [1] [-1] []) (.const [2] [-1] []), some "AssertionError") :=
  C6_amended_hyp_length_assert
    (.sum [1, 2] [-1, -1] [] (.const [1] [-1] []) (.const [2] [-1] [])) [1]
    (by decide) (by decide) (by decide)

/-- C7 counterexample: multiplying a mean by an unsupported operand (e.g. a
string), and raising a mean to the non-positive integer power −2, both
return normally with `None` (after printing a complaint) — there is no
raised error, so the claim's "rejected with a reported error" fails on
both operators. -/
theorem C7_counterexample_silent_none :
    pyMul (mkConst 5) .other = .ok none
    ∧ pyPow (mkConst 5) (.intOp (-2)) = .ok none := by decide

/-- C7 (amended): unsupported operands of `*` and `**` are refused at
tree-construction time, but by printing a message and returning `None` (a
normal return with no node built) rather than by raising an error; the
`None` then crashes only if the caller uses it later. -/
theorem C7_amended_operators_return_none :
    ∀ (m : MeanF) (z : ℤ) (q : ℚ),
      pyMul m .other = .ok none
      ∧ (z ≤ 0 → pyPow m (.intOp z) = .ok none)
      ∧ pyPow m (.floatOp q) = .ok none
      ∧ pyPow m .other = .ok none := by
  intro m z q
  refine ⟨rfl, ?_, rfl, rfl⟩
  intro hz
  simp only [pyPow]
  rw [if_neg (by omega)]

/-- C7 witness: raising to the power 0 returns `None` normally. -/
theorem C7_witness_pow_zero :
    pyPow mkZero (.intOp 0) = .ok none :=
  (C7_amended_operators_return_none mkZero 0 0).2.1 (by decide)

/-- C8 counterexample: `Linear` with one parameter (`k = 1`) on a 1×2
matrix — the claim says `derivative(X, 1)` (index ≥ k) is a zero vector,
but the code tests `der < D` against the data dimension `D = 2` and
returns column 1 of X, namely `[2]`. -/
theorem C8_counterexample_der_uses_D :
    getDerMatrix (fun v => v) (.linear [1] [0] []) [[1, 2]] 1 = .ok [2]
    ∧ (2 : ℚ) ≠ 0 := by decide

/-- C8 (amended): `Linear.getDerMatrix` compares the index against the
data dimension `D` (the column count of X), not the parameter count `k`:
indices below `D` return that column of X, indices at or past `D` return
zeros.  `getMean` is the matrix-vector product `X · a` whenever the row
length matches `k`.  When `k = D` this coincides with the claim, as in the
concrete scenario X = [[1,2],[3,4]], hyp = [1,1]. -/
theorem C8_amended_linear_der_and_mean :
    ∀ (log : ℚ → ℚ) (h i s : List ℚ) (x : List (List ℚ)) (der : ℕ),
      (der < shapeD x →
        getDerMatrix log (.linear h i s) x der = .ok (x.map (fun r => r.getD der 0)))
      ∧ (shapeD x ≤ der →
        getDerMatrix log (.linear h i s) x der = .ok (List.replicate x.length 0))
      ∧ (x.all (fun r => r.length == h.length) = true →
        getMean (.linear h i s) x = .ok (x.map (fun r => qdot r h)))
      ∧ getMean (.linear [1, 1] [0, 1] []) [[1, 2], [3, 4]] = .ok [3, 7]
      ∧ getDerMatrix log (.linear [1, 1] [0, 1] []) [[1, 2], [3, 4]] 0 = .ok [1, 3]
      ∧ getDerMatrix log (.linear [1, 1] [0, 1] []) [[1, 2], [3, 4]] 1 = .ok [2, 4] := by
  intro log h i s x der
  refine ⟨?_, ?_, ?_, ?_, ?_, ?_⟩
  · intro hlt
    simp only [getDerMatrix]
    rw [if_pos hlt]
  · intro hge
    simp only [getDerMatrix]
    rw [if_neg (by omega)]
  · intro hall
    simp only [getMean]
    rw [if_pos hall]
  · simp [getMean, qdot]
    norm_num
  · rfl
  · rfl

/-- C8 witness: index 0 on the 1×2 matrix is below `D`, so the derivative
is column 0 of X. -/
theorem C8_witness_column :
    getDerMatrix (fun v => v) (.linear [1] [0] []) [[1, 2]] 0 =
      .ok ([[(1 : ℚ), 2]].map (fun r => r.getD 0 0)) :=
  (C8_amended_linear_der_and_mean (fun v => v) [1] [0] [] [[1, 2]] 0).1 (by decide)

/-- C9: `ScaleOfMean` semantics.  Evaluation is the child's evaluation
scaled elementwise by the stored scale parameter `c = hyp[0]`; the
derivative at index 0 is exactly the child's evaluation; the derivative at
any index `i ≥ 1` is `c` times the child's derivative at `i − 1`. -/
theorem C9_scale_semantics :
    ∀ (log : ℚ → ℚ) (c : ℚ) (rest i s : List ℚ) (m : MeanF) (x : List (List ℚ)),
      getMean (.scaleM (c :: rest) i s m) x = (getMean m x).map (List.map (fun v => c * v))
      ∧ getDerMatrix log (.scaleM (c :: rest) i s m) x 0 = getMean m x
      ∧ ∀ der : ℕ, getDerMatrix log (.scaleM (c :: rest) i s m) x (der + 1) =
          (getDerMatrix log m x der).map (List.map (fun v => c * v)) := by
  intro log c rest i s m x
  refine ⟨rfl, rfl, ?_⟩
  intro der
  simp only [getDerMatrix]
  rw [if_neg (by omega), Nat.add_sub_cancel]
